import Mathlib

/-!
# FluxPlayer — verification of the coordination layer

Shallow embedding of the FluxPlayer front-end logic (`src/js/app.js`,
`src/js/subtitle-parser.js`, `src/js/storage.js`) and proofs about it.

Modelling conventions:
* JS strings are Lean `String` (a wrapper around `List Char`); the regex and
  `replace` operations of the source are embedded as explicit left-to-right
  scans with the same leftmost, non-overlapping semantics.
* JS numbers holding playback times are embedded as `ℚ`; `Math.floor` is
  `Rat.floor` and JS `%` on non-negative operands is `Int.emod`.
* Side effects that leave the modelled state (persistence writes, DOM
  rendering, toast messages) are returned explicitly: functions return the
  new state together with booleans/lists describing the effects they issued.
* External, fallible browser facilities (Blob/object-URL creation, file
  reads) are passed in as explicit parameters (`Option String` for a
  creation attempt that can throw).
-/

/-- A file descriptor as the DOM hands it to the controller:
`{name, size, type}`. -/
structure File where
  name : String
  size : Nat
  type : String
deriving DecidableEq

/-- One watch-history entry, as built by `AppState.addToHistory`:
`{name, size, type, time, lastPlayed}`. -/
structure HistoryEntry where
  name : String
  size : Nat
  type : String
  time : ℚ
  lastPlayed : String
deriving DecidableEq

/-- The settings record of `AppState.settings`. -/
structure Settings where
  fontSize : Nat
  fontFamily : String
  textColor : String
  bgColor : String
  bgOpacity : Nat
deriving DecidableEq

namespace AppState

/-- The fresh entry `addToHistory` unshifts:
`{name: file.name, size: file.size, type: file.type, time, lastPlayed: now}`.
`now` stands for `new Date().toISOString()`. -/
def mkEntry (file : File) (time : ℚ) (now : String) : HistoryEntry :=
  ⟨file.name, file.size, file.type, time, now⟩

/-- `AppState.addToHistory(file, time)` (app.js:38-50):
filter out entries with the same name, unshift a fresh entry, and pop the
last entry when the length exceeds 20.  The `save()` and
`UIManager.renderHistory` calls are persistence/presentation side effects
outside the modelled state. -/
def addToHistory (history : List HistoryEntry) (file : File) (time : ℚ)
    (now : String) : List HistoryEntry :=
  let filtered := history.filter fun h => h.name != file.name
  let unshifted := mkEntry file time now :: filtered
  if unshifted.length > 20 then unshifted.dropLast else unshifted

/-- `AppState.updateHistoryTime(fileName, time)` (app.js:52-59):
`find` locates the first entry with the given name and mutates its `time`
and `lastPlayed` in place; `save()` runs only when it was found.  The
returned boolean records whether `save()` was called. -/
def updateHistoryTime (history : List HistoryEntry) (fileName : String)
    (time : ℚ) (now : String) : List HistoryEntry × Bool :=
  match history with
  | [] => ([], false)
  | e :: rest =>
    if e.name = fileName then
      ({ e with time := time, lastPlayed := now } :: rest, true)
    else
      let r := updateHistoryTime rest fileName time now
      (e :: r.1, r.2)

/-- `AppState.getHistoryItem(fileName)` (app.js:61-63): first entry whose
name matches. -/
def getHistoryItem (history : List HistoryEntry) (fileName : String) :
    Option HistoryEntry :=
  history.find? fun h => h.name == fileName

/-- A sequence of `addToHistory` calls (each carrying the file, the time,
and the timestamp of the call) run from a starting history, as produced by
repeated `recordPlayback` user actions. -/
def recordPlaybackRun (calls : List (File × ℚ × String))
    (start : List HistoryEntry) : List HistoryEntry :=
  calls.foldl (fun hist c => addToHistory hist c.1 c.2.1 c.2.2) start

end AppState

namespace SubtitleParser

/-- First normalization pass of `srtToVtt` (subtitle-parser.js:305):
`srtContent.replace(/\r\n/g, '\n')` — a left-to-right scan replacing each
leftmost, non-overlapping `"\r\n"` by `"\n"`. -/
def replaceCRLF : List Char → List Char
  | '\r' :: '\n' :: rest => '\n' :: replaceCRLF rest
  | c :: rest => c :: replaceCRLF rest
  | [] => []

/-- Second normalization pass of `srtToVtt` (subtitle-parser.js:305):
`.replace(/\r/g, '\n')` — every remaining carriage return becomes a
newline. -/
def replaceCR (l : List Char) : List Char :=
  l.map fun c => if c == '\r' then '\n' else c

/-- The timestamp rewrite of `srtToVtt` (subtitle-parser.js:310-312):
`replace(/(\d{2}:\d{2}:\d{2}),(\d{3})/g, '$1.$2')` — scan left to right;
whenever the next 12 characters are `dd:dd:dd,ddd`, emit them with the
comma turned into a dot and resume after the match; otherwise emit one
character and advance by one (leftmost, non-overlapping matches, exactly
as a global regex replace).
The recursion is driven by a fuel counter, initialized to the input
length; every step consumes at least one character and exactly one unit
of fuel, so the fuel never runs out before the input is exhausted (the
fuel-out branch is unreachable) and the function evaluates by kernel
reduction. -/
def replaceTimestampsAux : Nat → List Char → List Char
  | _, [] => []
  | 0, l => l
  | fuel + 1,
      a :: b :: ':' :: c :: d :: ':' :: e :: f :: ',' :: g :: h :: i ::
        rest =>
    if a.isDigit && b.isDigit && c.isDigit && d.isDigit && e.isDigit &&
        f.isDigit && g.isDigit && h.isDigit && i.isDigit then
      a :: b :: ':' :: c :: d :: ':' :: e :: f :: '.' :: g :: h :: i ::
        replaceTimestampsAux fuel rest
    else
      a :: replaceTimestampsAux fuel
        (b :: ':' :: c :: d :: ':' :: e :: f :: ',' :: g :: h :: i :: rest)
  | fuel + 1, c :: rest => c :: replaceTimestampsAux fuel rest

/-- The timestamp rewrite, at full fuel. -/
def replaceTimestamps (l : List Char) : List Char :=
  replaceTimestampsAux l.length l

/-- `SubtitleParser.srtToVtt(srtContent)` (subtitle-parser.js:298-315):
empty (falsy) input returns `''`; otherwise the `WEBVTT` header is
prepended and the normalized content has its SRT timestamps rewritten. -/
def srtToVtt (srtContent : String) : String :=
  if srtContent = "" then ""
  else
    "WEBVTT\n\n" ++
      String.mk (replaceTimestamps (replaceCR (replaceCRLF srtContent.toList)))

/-- `SubtitleParser.createTrackBlob(content)` (subtitle-parser.js:323-332):
wraps `new Blob` + `URL.createObjectURL` in try/catch and returns `''` on
failure.  The browser's fallible URL creation is modelled by the
`created` parameter: `some url` when it succeeds, `none` when it throws.
The `content` argument mirrors the source signature; the blob's payload
lives outside the model. -/
def createTrackBlob (content : String) (created : Option String) : String :=
  match content, created with
  | _, some url => url
  | _, none => ""

/-- `SubtitleParser.isSrt(file)` (subtitle-parser.js:339-341):
`file.name.toLowerCase().endsWith('.srt')`. -/
def isSrt (file : File) : Bool :=
  (file.name.toLower).endsWith ".srt"

/-- Does the character list start with a `dd:dd:dd,ddd` timestamp?  Used to
express "the output still contains an SRT comma timestamp". -/
def startsWithCommaTS : List Char → Bool
  | a :: b :: ':' :: c :: d :: ':' :: e :: f :: ',' :: g :: h :: i :: _ =>
    a.isDigit && b.isDigit && c.isDigit && d.isDigit && e.isDigit &&
      f.isDigit && g.isDigit && h.isDigit && i.isDigit
  | _ => false

/-- Does the string contain a `dd:dd:dd,ddd` substring anywhere? -/
def hasCommaTS (s : String) : Bool :=
  s.toList.tails.any startsWithCommaTS

end SubtitleParser

/-- One entry of `PlayerController.tracks` (app.js:175-181). -/
structure Track where
  kind : String
  label : String
  srclang : String
  src : String
  default : Bool
deriving DecidableEq

/-- The mutable fields of `PlayerController` (app.js:73-78).  The Plyr
widget `instance` is external; only its presence (set by `init`) matters
to the control flow, so it is modelled as a boolean. -/
structure PlayerController where
  hasInstance : Bool
  currentFile : Option File
  videoObjectUrl : Option String
  subtitleBlobs : List String
  tracks : List Track
deriving DecidableEq

namespace PlayerController

/-- The label computation of `loadSubtitle` (app.js:177):
`file.name.replace(/\.[^/.]+$/, "")` — drop a final `.ext` suffix whose
`ext` is non-empty and contains neither `.` nor `/`. -/
def stripExt (s : String) : String :=
  let rev := s.toList.reverse
  let ext := rev.takeWhile fun c => c != '.' && c != '/'
  if ext.length > 0 && (rev.drop ext.length).head? == some '.' then
    String.mk ((rev.drop (ext.length + 1)).reverse)
  else s

/-- The track object pushed by `loadSubtitle` (app.js:175-181). -/
def newTrack (file : File) (blobUrl : String) : Track :=
  ⟨"captions", stripExt file.name, "en", blobUrl, true⟩

/-- `PlayerController.loadSubtitle(file)` (app.js:151-192) together with
its `reader.onload` continuation, over the full application state it can
reach.  `content` is the text the `FileReader` delivered and `created`
the outcome of the browser's object-URL creation (see `createTrackBlob`).
Returns the new `(controller, history, settings)` and the list of toast
messages shown.  The guard at app.js:152 aborts, with a toast and no state
change, when the player instance or the current file is missing. -/
def loadSubtitle (pc : PlayerController) (history : List HistoryEntry)
    (settings : Settings) (file : File) (content : String)
    (created : Option String) :
    (PlayerController × List HistoryEntry × Settings) × List String :=
  if pc.hasInstance = false ∨ pc.currentFile = none then
    ((pc, history, settings), ["Please load a video first!"])
  else
    let vttContent :=
      if SubtitleParser.isSrt file then SubtitleParser.srtToVtt content
      else content
    let blobUrl := SubtitleParser.createTrackBlob vttContent created
    let pc' :=
      { pc with
        subtitleBlobs := pc.subtitleBlobs ++ [blobUrl]
        tracks :=
          (pc.tracks.map fun t => { t with default := false }) ++
            [newTrack file blobUrl] }
    ((pc', history, settings), ["Subtitle Added to Menu"])

/-- `PlayerController.loadVideo(file)` (app.js:110-146), restricted to the
state it mutates: revokes and clears the subtitle blobs and tracks, sets
the current file and a fresh object URL, computes the resume offset from
history, and records the playback via `addToHistory`.  Returns the new
controller state, the new history, and the computed `startTime`. -/
def loadVideo (pc : PlayerController) (history : List HistoryEntry)
    (file : File) (now : String) (newUrl : String) :
    PlayerController × List HistoryEntry × ℚ :=
  let startTime :=
    match AppState.getHistoryItem history file.name with
    | some item => item.time
    | none => 0
  let pc' :=
    { pc with
      currentFile := some file
      videoObjectUrl := some newUrl
      subtitleBlobs := []
      tracks := [] }
  (pc', AppState.addToHistory history file startTime now, startTime)

/-- The `timeupdate` handler installed by `PlayerController.init`
(app.js:93-99): with no current file it returns at once; otherwise, when
`time > 0 && Math.floor(time) % 5 === 0`, it pushes the current time into
`AppState.updateHistoryTime`.  The boolean records whether that push
happened. -/
def timeupdateHandler (currentFile : Option File)
    (history : List HistoryEntry) (time : ℚ) (now : String) :
    List HistoryEntry × Bool :=
  match currentFile with
  | none => (history, false)
  | some file =>
    if 0 < time ∧ Rat.floor time % 5 = 0 then
      ((AppState.updateHistoryTime history file.name time now).1, true)
    else (history, false)

end PlayerController

/-! ## Helper lemmas about the history operations -/

/-- One `addToHistory` call preserves the history invariant: length at
most 20 and pairwise-distinct names. -/
theorem addToHistory_step_inv (history : List HistoryEntry) (file : File)
    (t : ℚ) (now : String) (hlen : history.length ≤ 20)
    (hnd : (history.map HistoryEntry.name).Nodup) :
    (AppState.addToHistory history file t now).length ≤ 20 ∧
    ((AppState.addToHistory history file t now).map HistoryEntry.name).Nodup := by
  simp only [AppState.addToHistory]
  have hsub : (history.filter fun h => h.name != file.name).Sublist history :=
    List.filter_sublist _
  have hlenf : (history.filter fun h => h.name != file.name).length ≤
      history.length := List.length_filter_le _ _
  have hnd2 : ((history.filter fun h => h.name != file.name).map
      HistoryEntry.name).Nodup :=
    List.Nodup.sublist (hsub.map _) hnd
  have hnotmem : file.name ∉
      (history.filter fun h => h.name != file.name).map HistoryEntry.name := by
    intro hmem
    rcases List.mem_map.mp hmem with ⟨e, he, hname⟩
    have hne := (List.mem_filter.mp he).2
    rw [bne_iff_ne] at hne
    exact hne hname
  have hcons : ((AppState.mkEntry file t now ::
      history.filter fun h => h.name != file.name).map
        HistoryEntry.name).Nodup := by
    simp only [List.map_cons, List.nodup_cons]
    exact ⟨hnotmem, hnd2⟩
  have hlc : (AppState.mkEntry file t now ::
      (history.filter fun h => h.name != file.name)).length =
      (history.filter fun h => h.name != file.name).length + 1 :=
    List.length_cons _ _
  split
  · next hgt =>
    refine ⟨?_, List.Nodup.sublist ((List.dropLast_sublist _).map _) hcons⟩
    rw [List.length_dropLast]
    omega
  · next hle =>
    exact ⟨by omega, hcons⟩

/-- The fresh entry is always at the front after `addToHistory` (the
possible tail truncation never removes the head). -/
theorem addToHistory_head (history : List HistoryEntry) (file : File)
    (t : ℚ) (now : String) :
    (AppState.addToHistory history file t now).head? =
      some (AppState.mkEntry file t now) := by
  simp only [AppState.addToHistory]
  split
  · next hgt =>
    cases hf : history.filter fun h => h.name != file.name with
    | nil =>
      rw [hf] at hgt
      simp at hgt
    | cons x xs => rfl
  · rfl

/-! ## Claims about the history store -/

/-- C1: for every sequence of `recordPlayback` (`addToHistory`) calls
starting from an empty history, the resulting history has length at
most 20 and contains no two entries with the same name.  (Every prefix of
a call sequence is itself a call sequence, so this covers the state after
each call.) -/
theorem recordPlayback_history_invariant (calls : List (File × ℚ × String)) :
    (AppState.recordPlaybackRun calls []).length ≤ 20 ∧
    ((AppState.recordPlaybackRun calls []).map HistoryEntry.name).Nodup := by
  suffices h : ∀ (cs : List (File × ℚ × String)) (acc : List HistoryEntry),
      acc.length ≤ 20 → (acc.map HistoryEntry.name).Nodup →
      (AppState.recordPlaybackRun cs acc).length ≤ 20 ∧
      ((AppState.recordPlaybackRun cs acc).map HistoryEntry.name).Nodup by
    exact h calls [] (by simp) (by simp)
  intro cs
  induction cs with
  | nil => intro acc h1 h2; exact ⟨h1, h2⟩
  | cons c cs ih =>
    intro acc h1 h2
    have step := addToHistory_step_inv acc c.1 c.2.1 c.2.2 h1 h2
    exact ih _ step.1 step.2

/-- C6: recording playback for a name already present in a history obeying
the length invariant removes the old entry and puts a fresh entry (with
the new time and timestamp) at the front; the other entries keep their
relative order unchanged, and exactly one entry with that name remains. -/
theorem addToHistory_existing_moves_front (history : List HistoryEntry)
    (file : File) (t : ℚ) (now : String) (hlen : history.length ≤ 20)
    (hmem : ∃ e ∈ history, e.name = file.name) :
    AppState.addToHistory history file t now =
      AppState.mkEntry file t now ::
        (history.filter fun h => h.name != file.name) ∧
    ((AppState.addToHistory history file t now).filter
        fun h => h.name == file.name).length = 1 := by
  have hlt : (history.filter fun h => h.name != file.name).length <
      history.length := by
    rcases hmem with ⟨e, he, hname⟩
    exact List.length_filter_lt_length_iff_exists.mpr
      ⟨e, he, by simp [hname]⟩
  have heq : AppState.addToHistory history file t now =
      AppState.mkEntry file t now ::
        (history.filter fun h => h.name != file.name) := by
    simp only [AppState.addToHistory]
    rw [if_neg]
    simp only [List.length_cons]
    omega
  refine ⟨heq, ?_⟩
  rw [heq, List.filter_cons]
  have hpa : ((AppState.mkEntry file t now).name == file.name) = true := by
    simp [AppState.mkEntry]
  rw [if_pos hpa]
  have htail : ((history.filter fun h => h.name != file.name).filter
      fun h => h.name == file.name) = [] := by
    rw [List.filter_eq_nil_iff]
    intro a ha
    have hne := (List.mem_filter.mp ha).2
    rw [bne_iff_ne] at hne
    simp [hne]
  rw [htail]
  rfl

/-- Witness for `addToHistory_existing_moves_front`: a two-entry history
where the second entry's name is recorded again. -/
theorem addToHistory_existing_moves_front_witness :
    AppState.addToHistory
        [⟨"b.mp4", 2, "video/mp4", 3, "T1"⟩, ⟨"a.mp4", 1, "video/mp4", 0, "T0"⟩]
        ⟨"a.mp4", 1, "video/mp4"⟩ 7 "T2" =
      AppState.mkEntry ⟨"a.mp4", 1, "video/mp4"⟩ 7 "T2" ::
        ([⟨"b.mp4", 2, "video/mp4", 3, "T1"⟩,
          ⟨"a.mp4", 1, "video/mp4", 0, "T0"⟩].filter
            fun h => h.name != "a.mp4") ∧
    ((AppState.addToHistory
        [⟨"b.mp4", 2, "video/mp4", 3, "T1"⟩, ⟨"a.mp4", 1, "video/mp4", 0, "T0"⟩]
        ⟨"a.mp4", 1, "video/mp4"⟩ 7 "T2").filter
          fun h => h.name == "a.mp4").length = 1 :=
  addToHistory_existing_moves_front
    [⟨"b.mp4", 2, "video/mp4", 3, "T1"⟩, ⟨"a.mp4", 1, "video/mp4", 0, "T0"⟩]
    ⟨"a.mp4", 1, "video/mp4"⟩ 7 "T2" (by decide) (by decide)

/-- C7: `updateProgress` (`updateHistoryTime`) for a name not present in
the history leaves the list unchanged and does not persist (`save()` is
not called). -/
theorem updateHistoryTime_unknown (history : List HistoryEntry)
    (fileName : String) (t : ℚ) (now : String)
    (h : ∀ e ∈ history, e.name ≠ fileName) :
    AppState.updateHistoryTime history fileName t now = (history, false) := by
  induction history with
  | nil => rfl
  | cons e rest ih =>
    have hne : e.name ≠ fileName := h e (List.mem_cons_self _ _)
    have hrest := ih fun x hx => h x (List.mem_cons_of_mem _ hx)
    simp only [AppState.updateHistoryTime]
    rw [if_neg hne, hrest]

/-- Witness for `updateHistoryTime_unknown` on a one-entry history and an
unknown name. -/
theorem updateHistoryTime_unknown_witness :
    AppState.updateHistoryTime [⟨"a.mp4", 1, "video/mp4", 0, "T0"⟩]
      "zz.mp4" 5 "T9" = ([⟨"a.mp4", 1, "video/mp4", 0, "T0"⟩], false) :=
  updateHistoryTime_unknown [⟨"a.mp4", 1, "video/mp4", 0, "T0"⟩]
    "zz.mp4" 5 "T9" (by decide)

/-! ## Claims about the subtitle converter -/

/-- C8: `convertSrtToVtt` (`srtToVtt`) applied to empty input returns empty
output, with no WEBVTT header added. -/
theorem srtToVtt_empty : SubtitleParser.srtToVtt "" = "" := rfl

/-- Counterexample to C2 as stated: on the input
`"00:00:00,000:00:00,000"` the single global (leftmost, non-overlapping)
substitution consumes the first twelve characters, so the comma timestamp
`00:00:00,000` that straddles the first match survives in the output —
not every substring of the form `HH:MM:SS,mmm` is rewritten. -/
theorem srtToVtt_overlap_counterexample :
    SubtitleParser.srtToVtt "00:00:00,000:00:00,000" =
      "WEBVTT\n\n00:00:00.000:00:00,000" ∧
    SubtitleParser.hasCommaTS
      (SubtitleParser.srtToVtt "00:00:00,000:00:00,000") = true := by
  exact ⟨by decide, by decide⟩

/-- C2 (amended): for every non-empty input, `srtToVtt` output begins with
the `WEBVTT` header (its first eight characters are `"WEBVTT\n\n"`), and
the timestamps matched by the leftmost non-overlapping global scan are
rewritten from comma to dot form; in particular converting
`"00:00:01,500 --> 00:00:02,000"` yields the header followed by
`"00:00:01.500 --> 00:00:02.000"`. -/
theorem srtToVtt_header_and_example :
    (∀ s : String, s ≠ "" →
      (SubtitleParser.srtToVtt s).toList.take 8 = "WEBVTT\n\n".toList) ∧
    SubtitleParser.srtToVtt "00:00:01,500 --> 00:00:02,000" =
      "WEBVTT\n\n00:00:01.500 --> 00:00:02.000" := by
  constructor
  · intro s hs
    unfold SubtitleParser.srtToVtt
    rw [if_neg hs]
    show (("WEBVTT\n\n" ++
      String.mk (SubtitleParser.replaceTimestamps
        (SubtitleParser.replaceCR
          (SubtitleParser.replaceCRLF s.toList)))).data).take 8 =
      ("WEBVTT\n\n").data
    rw [String.data_append]
    rw [show (8 : ℕ) = ("WEBVTT\n\n".data).length from rfl]
    exact List.take_left _ _
  · decide

/-- Witness for `srtToVtt_header_and_example` at the concrete input
`"x"`. -/
theorem srtToVtt_header_and_example_witness :
    ("x" : String) ≠ "" ∧
    (SubtitleParser.srtToVtt "x").toList.take 8 = "WEBVTT\n\n".toList :=
  ⟨by decide, srtToVtt_header_and_example.1 "x" (by decide)⟩

/-! ## Claims about the timeupdate progress sampling -/

/-- Counterexample to C3 as stated: the two time-update signals `51/10`
(5.1 s) and `26/5` (5.2 s) have the same integer floor, yet the handler
pushes a progress write for both — there is no dedupe by last-written
second. -/
theorem timeupdate_same_second_double_write :
    (PlayerController.timeupdateHandler (some ⟨"movie.mp4", 1000, "video/mp4"⟩)
      [⟨"movie.mp4", 1000, "video/mp4", 0, "T0"⟩] (mkRat 51 10) "T1").2 = true ∧
    (PlayerController.timeupdateHandler (some ⟨"movie.mp4", 1000, "video/mp4"⟩)
      [⟨"movie.mp4", 1000, "video/mp4", 0, "T0"⟩] (mkRat 26 5) "T2").2 = true ∧
    Rat.floor (mkRat 51 10) = Rat.floor (mkRat 26 5) ∧
    (mkRat 51 10) ≠ (mkRat 26 5) := by
  refine ⟨?_, ?_, ?_, ?_⟩ <;> decide

/-- C3 (amended): the handler is stateless — on every time-update signal
with a video loaded, a positive time, and an integer floor divisible
by 5, it pushes the current time into `updateHistoryTime`, regardless of
any earlier write in the same integer second. -/
theorem timeupdate_writes_on_multiple (file : File)
    (history : List HistoryEntry) (time : ℚ) (now : String)
    (h1 : 0 < time) (h2 : Rat.floor time % 5 = 0) :
    (PlayerController.timeupdateHandler (some file) history time now).2 =
      true := by
  simp [PlayerController.timeupdateHandler, h1, h2]

/-! ## Claims about the playback session -/

/-- Unfolding of `loadSubtitle` when the session is active (player
instance present and a current file set): the new track — default — is
appended after all existing tracks are marked non-default, the created
handle is pushed onto `subtitleBlobs`, history and settings are
untouched, and the "Subtitle Added to Menu" toast is shown. -/
theorem loadSubtitle_active (pc : PlayerController)
    (history : List HistoryEntry) (settings : Settings) (file : File)
    (content : String) (created : Option String) (vf : File)
    (h1 : pc.hasInstance = true) (h2 : pc.currentFile = some vf) :
    PlayerController.loadSubtitle pc history settings file content created =
      (({ pc with
          subtitleBlobs := pc.subtitleBlobs ++
            [SubtitleParser.createTrackBlob
              (if SubtitleParser.isSrt file then SubtitleParser.srtToVtt content
               else content) created]
          tracks := (pc.tracks.map fun t => { t with default := false }) ++
            [PlayerController.newTrack file
              (SubtitleParser.createTrackBlob
                (if SubtitleParser.isSrt file then
                    SubtitleParser.srtToVtt content
                  else content) created)] },
        history, settings), ["Subtitle Added to Menu"]) := by
  simp only [PlayerController.loadSubtitle]
  rw [if_neg]
  rintro (hfalse | hnone)
  · rw [h1] at hfalse
    exact Bool.noConfusion hfalse
  · rw [h2] at hnone
    exact Option.some_ne_none vf hnone

/-- C5: calling `loadSubtitle` while no video session is active produces
the "Please load a video first!" toast and leaves the controller state,
the history, and the settings unchanged. -/
theorem loadSubtitle_no_video (pc : PlayerController)
    (history : List HistoryEntry) (settings : Settings) (file : File)
    (content : String) (created : Option String)
    (h : pc.currentFile = none) :
    PlayerController.loadSubtitle pc history settings file content created =
      ((pc, history, settings), ["Please load a video first!"]) := by
  simp only [PlayerController.loadSubtitle]
  rw [if_pos (Or.inr h)]

/-- Witness for `loadSubtitle_no_video` on a fresh controller without a
loaded video. -/
theorem loadSubtitle_no_video_witness :
    PlayerController.loadSubtitle ⟨true, none, none, [], []⟩ []
      ⟨18, "'Inter', sans-serif", "#ffffff", "#000000", 50⟩
      ⟨"subs.srt", 9, ""⟩ "1\n00:00:01,500 --> 00:00:02,000\nHi\n" none =
      ((⟨true, none, none, [], []⟩, [],
        ⟨18, "'Inter', sans-serif", "#ffffff", "#000000", 50⟩),
       ["Please load a video first!"]) :=
  loadSubtitle_no_video ⟨true, none, none, [], []⟩ []
    ⟨18, "'Inter', sans-serif", "#ffffff", "#000000", 50⟩
    ⟨"subs.srt", 9, ""⟩ "1\n00:00:01,500 --> 00:00:02,000\nHi\n" none rfl

/-- C9: after every completed `loadSubtitle` on an active session, exactly
one track in the session's track list has `default = true`, and it is the
most recently added track (the last one; all previously existing tracks
are marked non-default). -/
theorem loadSubtitle_single_default (pc : PlayerController)
    (history : List HistoryEntry) (settings : Settings) (file : File)
    (content : String) (created : Option String) (vf : File)
    (h1 : pc.hasInstance = true) (h2 : pc.currentFile = some vf) :
    (((PlayerController.loadSubtitle pc history settings file content
        created).1.1).tracks.filter fun t => t.default).length = 1 ∧
    ((PlayerController.loadSubtitle pc history settings file content
        created).1.1).tracks.getLast? =
      some (PlayerController.newTrack file
        (SubtitleParser.createTrackBlob
          (if SubtitleParser.isSrt file then SubtitleParser.srtToVtt content
            else content) created)) := by
  rw [loadSubtitle_active pc history settings file content created vf h1 h2]
  constructor
  · rw [List.filter_append]
    have hleft : ((pc.tracks.map fun t => { t with default := false }).filter
        fun t => t.default) = [] := by
      rw [List.filter_eq_nil_iff]
      intro a ha
      rcases List.mem_map.mp ha with ⟨b, _, hb⟩
      rw [← hb]
      simp
    rw [hleft]
    rfl
  · exact List.getLast?_concat _

/-- Witness for `loadSubtitle_single_default`: adding a subtitle to a
session that already holds one default track. -/
theorem loadSubtitle_single_default_witness :
    (((PlayerController.loadSubtitle
        ⟨true, some ⟨"v.mp4", 7, "video/mp4"⟩, some "blob:v",
          ["blob:s0"], [⟨"captions", "old", "en", "blob:s0", true⟩]⟩
        [] ⟨18, "'Inter', sans-serif", "#ffffff", "#000000", 50⟩
        ⟨"subs.vtt", 9, ""⟩ "WEBVTT\n\nHi" (some "blob:s1")).1.1).tracks.filter
          fun t => t.default).length = 1 ∧
    ((PlayerController.loadSubtitle
        ⟨true, some ⟨"v.mp4", 7, "video/mp4"⟩, some "blob:v",
          ["blob:s0"], [⟨"captions", "old", "en", "blob:s0", true⟩]⟩
        [] ⟨18, "'Inter', sans-serif", "#ffffff", "#000000", 50⟩
        ⟨"subs.vtt", 9, ""⟩ "WEBVTT\n\nHi" (some "blob:s1")).1.1).tracks.getLast? =
      some (PlayerController.newTrack ⟨"subs.vtt", 9, ""⟩
        (SubtitleParser.createTrackBlob
          (if SubtitleParser.isSrt ⟨"subs.vtt", 9, ""⟩ then
              SubtitleParser.srtToVtt "WEBVTT\n\nHi"
            else "WEBVTT\n\nHi") (some "blob:s1"))) :=
  loadSubtitle_single_default
    ⟨true, some ⟨"v.mp4", 7, "video/mp4"⟩, some "blob:v",
      ["blob:s0"], [⟨"captions", "old", "en", "blob:s0", true⟩]⟩
    [] ⟨18, "'Inter', sans-serif", "#ffffff", "#000000", 50⟩
    ⟨"subs.vtt", 9, ""⟩ "WEBVTT\n\nHi" (some "blob:s1")
    ⟨"v.mp4", 7, "video/mp4"⟩ rfl rfl

/-- Counterexample to C4 as stated: with an active session and a failing
resource creation, `createTrackBlob` does return the empty handle, but
`loadSubtitle` never checks it — the track is still added (with an empty
`src`) and the empty handle is still pushed onto `subtitleBlobs`, so the
track list and the set of live subtitle handles change. -/
theorem createTrackBlob_failure_counterexample :
    SubtitleParser.createTrackBlob "WEBVTT\n\nHi" none = "" ∧
    ((PlayerController.loadSubtitle
        ⟨true, some ⟨"v.mp4", 7, "video/mp4"⟩, some "blob:v", [], []⟩
        [] ⟨18, "'Inter', sans-serif", "#ffffff", "#000000", 50⟩
        ⟨"subs.vtt", 9, ""⟩ "WEBVTT\n\nHi" none).1.1).tracks =
      [⟨"captions", "subs", "en", "", true⟩] ∧
    ((PlayerController.loadSubtitle
        ⟨true, some ⟨"v.mp4", 7, "video/mp4"⟩, some "blob:v", [], []⟩
        [] ⟨18, "'Inter', sans-serif", "#ffffff", "#000000", 50⟩
        ⟨"subs.vtt", 9, ""⟩ "WEBVTT\n\nHi" none).1.1).subtitleBlobs = [""] := by
  refine ⟨rfl, ?_, ?_⟩ <;> decide

/-- C4 (amended): when resource creation fails, `createTrackBlob` returns
the empty handle, but the subtitle-load path still appends the track —
with the empty string as its `src` — and records the empty handle among
the live subtitle handles. -/
theorem loadSubtitle_failure_adds_track (pc : PlayerController)
    (history : List HistoryEntry) (settings : Settings) (file : File)
    (content : String) (vf : File)
    (h1 : pc.hasInstance = true) (h2 : pc.currentFile = some vf) :
    ((PlayerController.loadSubtitle pc history settings file content
        none).1.1).subtitleBlobs = pc.subtitleBlobs ++ [""] ∧
    ((PlayerController.loadSubtitle pc history settings file content
        none).1.1).tracks =
      (pc.tracks.map fun t => { t with default := false }) ++
        [PlayerController.newTrack file ""] := by
  rw [loadSubtitle_active pc history settings file content none vf h1 h2]
  exact ⟨rfl, rfl⟩

/-- Witness for `loadSubtitle_failure_adds_track` on a session with one
existing track. -/
theorem loadSubtitle_failure_adds_track_witness :
    ((PlayerController.loadSubtitle
        ⟨true, some ⟨"v.mp4", 7, "video/mp4"⟩, some "blob:v",
          ["blob:s0"], [⟨"captions", "old", "en", "blob:s0", true⟩]⟩
        [] ⟨18, "'Inter', sans-serif", "#ffffff", "#000000", 50⟩
        ⟨"subs.vtt", 9, ""⟩ "WEBVTT\n\nHi" none).1.1).subtitleBlobs =
      ["blob:s0"] ++ [""] ∧
    ((PlayerController.loadSubtitle
        ⟨true, some ⟨"v.mp4", 7, "video/mp4"⟩, some "blob:v",
          ["blob:s0"], [⟨"captions", "old", "en", "blob:s0", true⟩]⟩
        [] ⟨18, "'Inter', sans-serif", "#ffffff", "#000000", 50⟩
        ⟨"subs.vtt", 9, ""⟩ "WEBVTT\n\nHi" none).1.1).tracks =
      ([(⟨"captions", "old", "en", "blob:s0", true⟩ : Track)].map
        fun t => { t with default := false }) ++
        [PlayerController.newTrack ⟨"subs.vtt", 9, ""⟩ ""] :=
  loadSubtitle_failure_adds_track
    ⟨true, some ⟨"v.mp4", 7, "video/mp4"⟩, some "blob:v",
      ["blob:s0"], [⟨"captions", "old", "en", "blob:s0", true⟩]⟩
    [] ⟨18, "'Inter', sans-serif", "#ffffff", "#000000", 50⟩
    ⟨"subs.vtt", 9, ""⟩ "WEBVTT\n\nHi" ⟨"v.mp4", 7, "video/mp4"⟩ rfl rfl

/-- C10: when `loadVideo` is called for a file whose name has a history
entry with resume time `t`, the computed start time is `t` and the fresh
history entry recorded for the load carries time `t` (at the front of the
new history), so stored progress survives the reload. -/
theorem loadVideo_resume_time (pc : PlayerController)
    (history : List HistoryEntry) (file : File) (now newUrl : String)
    (e : HistoryEntry)
    (hfind : AppState.getHistoryItem history file.name = some e)
    (hpos : 0 < e.time) :
    (PlayerController.loadVideo pc history file now newUrl).2.2 = e.time ∧
    (PlayerController.loadVideo pc history file now newUrl).2.1.head? =
      some (AppState.mkEntry file e.time now) := by
  have hstart : (PlayerController.loadVideo pc history file now newUrl).2.2 =
      e.time := by
    simp only [PlayerController.loadVideo, hfind]
  refine ⟨hstart, ?_⟩
  simp only [PlayerController.loadVideo, hfind]
  exact addToHistory_head history file e.time now

/-- Witness for `loadVideo_resume_time`: reloading a video whose history
entry stores 42 seconds of progress. -/
theorem loadVideo_resume_time_witness :
    (PlayerController.loadVideo ⟨true, none, none, [], []⟩
      [⟨"m.mp4", 5, "video/mp4", 42, "T0"⟩] ⟨"m.mp4", 5, "video/mp4"⟩
      "T1" "blob:new").2.2 = (⟨"m.mp4", 5, "video/mp4", 42, "T0"⟩ :
        HistoryEntry).time ∧
    (PlayerController.loadVideo ⟨true, none, none, [], []⟩
      [⟨"m.mp4", 5, "video/mp4", 42, "T0"⟩] ⟨"m.mp4", 5, "video/mp4"⟩
      "T1" "blob:new").2.1.head? =
      some (AppState.mkEntry ⟨"m.mp4", 5, "video/mp4"⟩
        (⟨"m.mp4", 5, "video/mp4", 42, "T0"⟩ : HistoryEntry).time "T1") :=
  loadVideo_resume_time ⟨true, none, none, [], []⟩
    [⟨"m.mp4", 5, "video/mp4", 42, "T0"⟩] ⟨"m.mp4", 5, "video/mp4"⟩
    "T1" "blob:new" ⟨"m.mp4", 5, "video/mp4", 42, "T0"⟩ (by decide)
    (by decide)

/-- Witness for `timeupdate_writes_on_multiple` at time 5 s. -/
theorem timeupdate_writes_on_multiple_witness :
    (0 < mkRat 5 1 ∧ Rat.floor (mkRat 5 1) % 5 = 0) ∧
    (PlayerController.timeupdateHandler (some ⟨"a.mp4", 1, "video/mp4"⟩)
      [] (mkRat 5 1) "T").2 = true :=
  ⟨⟨by decide, by decide⟩,
    timeupdate_writes_on_multiple ⟨"a.mp4", 1, "video/mp4"⟩ [] (mkRat 5 1) "T"
      (by decide) (by decide)⟩
